import Mathlib

/-!
# Verification of the aioshumway metrics library

A shallow embedding of `src/aioshumway/__init__.py` (the async wrapper around
the `shumway` metrics client) together with proofs of the specification
claims.  Pure Python methods become Lean functions; the mutable registry is
threaded explicitly as a `MetricRelay` value; the UDP transport is modelled
by the trace of datagrams an operation dispatches.

Parts of the behaviour live in the upstream `shumway` base classes, which are
not part of this repository's sources: those definitions are marked
`Modelled from the spec:` and follow the specification's description of them.
-/

set_option autoImplicit false

namespace Aioshumway

/-- Scalar JSON values appearing in metric attributes and tags
(strings, numbers, booleans cover every value this library's data model and
tests exercise).  Numbers are rationals, standing for Python ints/floats. -/
inductive JVal where
  | str : String → JVal
  | num : ℚ → JVal
  | bool : Bool → JVal
deriving DecidableEq

/-- A tags collection is a JSON object or a JSON array
(`shumway` defaults tags to the empty list `[]`). -/
inductive JTags where
  | obj : List (String × JVal) → JTags
  | arr : List JVal → JTags
deriving DecidableEq

/-- The three metric variants of the library: bare `Meter`, `Counter`,
`Timer` (Python subclasses sharing the same fields). -/
inductive MetricKind where
  | meter
  | counter
  | timer
deriving DecidableEq

/-- Modelled from the spec: the field layout of `shumway.Meter` (not under
`src/`): `name` (the `what`), `key`, mutable numeric `value`, `_attributes`
(the merge of `what: name` with caller attributes), `_tags`, and the timer's
`_start` timestamp (`none` for non-timers and before first scope entry). -/
structure Metric where
  kind : MetricKind
  name : String
  key : String
  value : ℚ
  attributes : List (String × JVal)
  tags : JTags
  start : Option ℚ
deriving DecidableEq

/-- Modelled from the spec: the `shumway.Meter` constructor — attributes are
`\x7bwhat: name\x7d` merged with the caller-supplied pairs, tags default to the
empty array, value defaults as passed (0 for registry-created metrics). -/
def Meter.make (what key : String) (value : ℚ)
    (attributes : Option (List (String × JVal))) (tags : Option JTags) :
    Metric :=
  { kind := .meter
    name := what
    key := key
    value := value
    attributes := ("what", JVal.str what) :: attributes.getD []
    tags := tags.getD (JTags.arr [])
    start := none }

/-- Modelled from the spec: `shumway.Counter`'s constructor (a Meter with
value 0, as created by the registry's `incr`). -/
def Counter.make (what key : String) : Metric :=
  { Meter.make what key 0 none none with kind := .counter }

/-- Modelled from the spec: `shumway.Timer`'s constructor (a Meter with
value 0 and no start timestamp yet). -/
def Timer.make (what key : String) : Metric :=
  { Meter.make what key 0 none none with kind := .timer }

/-- Modelled from the spec: `shumway.Counter.incr(value)` adds `value` to the
counter's value — no bounds checking, negative deltas decrement.  Only
counters have this method. -/
def Counter.incr (m : Metric) (value : ℚ) : Metric :=
  { m with value := m.value + value }

/-- Modelled from the spec: `shumway.Meter.update(value)` overwrites the
stored value. -/
def Meter.update (m : Metric) (value : ℚ) : Metric :=
  { m with value := value }

/-- Modelled from the spec: entering a Timer's scope captures a start
timestamp. -/
def Timer.enter (m : Metric) (now : ℚ) : Metric :=
  { m with start := some now }

/-- Modelled from the spec: exiting a Timer's scope computes elapsed time
from the captured start and calls `update` with it; this runs on every exit
path of the scope. -/
def Timer.exit (m : Metric) (now : ℚ) : Metric :=
  Meter.update m (now - (m.start.getD 0))

/-- Modelled from the spec: a scoped use of a Timer around a block `body`
that either returns or raises: enter at time `t0`, run the body, and exit at
time `t1` unconditionally — also when `body` is an error. -/
def Timer.scoped (m : Metric) (t0 t1 : ℚ) (body : Except String Unit) :
    Metric × Except String Unit :=
  (Timer.exit (Timer.enter m t0) t1, body)

/-- The normalized record `Meter.flush` (src/aioshumway/__init__.py, lines
64–74) passes to the sink: key, attributes, value, the constant type
"metric", and tags. -/
structure MetricRecord where
  key : String
  attributes : List (String × JVal)
  value : ℚ
  type : String
  tags : JTags
deriving DecidableEq

/-- `Meter.flush` from src: the dictionary built from the metric's current
fields and handed to the sink coroutine. -/
def Meter.flushRecord (m : Metric) : MetricRecord :=
  { key := m.key
    attributes := m.attributes
    value := m.value
    type := "metric"
    tags := m.tags }

/-- `Meter.flush` as a state transformer: the method body only reads `self`
(no assignment), so the metric after the call is the metric before it,
paired with the record passed to the sink. -/
def Meter.flushState (m : Metric) : Metric × MetricRecord :=
  (m, Meter.flushRecord m)

/-- A lowercase hexadecimal digit, as Python's `%04x` formatting uses. -/
def hexDigit (n : Nat) : Char :=
  if n < 10 then Char.ofNat (48 + n) else Char.ofNat (87 + n)

/-- Four lowercase hex digits, Python's `\uXXXX` escape payload. -/
def hex4 (n : Nat) : String :=
  String.mk [hexDigit (n / 4096 % 16), hexDigit (n / 256 % 16),
             hexDigit (n / 16 % 16), hexDigit (n % 16)]

/-- One character of `json.dumps`' default (ensure_ascii) string escaping:
backslash and quote get two-character escapes, the common control characters
their shorthands, printable ASCII passes through, and everything else
becomes `\uXXXX` (a surrogate pair above U+FFFF). -/
def escapeJsonChar (c : Char) : String :=
  if c = '\\' then "\\\\"
  else if c = '"' then "\\\""
  else if c = '\n' then "\\n"
  else if c = '\r' then "\\r"
  else if c = '\t' then "\\t"
  else if c.toNat = 8 then "\\b"
  else if c.toNat = 12 then "\\f"
  else if 32 ≤ c.toNat ∧ c.toNat ≤ 126 then String.mk [c]
  else if c.toNat < 65536 then "\\u" ++ hex4 c.toNat
  else
    "\\u" ++ hex4 (55296 + (c.toNat - 65536) / 1024) ++
    "\\u" ++ hex4 (56320 + (c.toNat - 65536) % 1024)

/-- A JSON string literal: quoted, with `json.dumps` escaping. -/
def jsonString (s : String) : String :=
  "\"" ++ String.join (s.data.map escapeJsonChar) ++ "\""

/-- A JSON number.  Integral rationals print like Python ints; non-integral
values stand for Python floats, whose textual float formatting is outside
this model (no metric record in the claims carries one). -/
def jsonNum (q : ℚ) : String :=
  if q.den = 1 then toString q.num
  else toString q.num ++ "/" ++ toString q.den

/-- A scalar JSON value rendered as `json.dumps` renders it. -/
def jsonOfJVal : JVal → String
  | .str s => jsonString s
  | .num q => jsonNum q
  | .bool b => if b then "true" else "false"

/-- A JSON object body from an association list, with `json.dumps`' default
separators (", " between items, ": " between key and value). -/
def jsonOfPairs (l : List (String × JVal)) : String :=
  "\x7b" ++
    String.intercalate ", " (l.map (fun p => jsonString p.1 ++ ": " ++ jsonOfJVal p.2)) ++
  "\x7d"

/-- A tags collection rendered as JSON. -/
def jsonOfTags : JTags → String
  | .obj l => jsonOfPairs l
  | .arr l => "[" ++ String.intercalate ", " (l.map jsonOfJVal) ++ "]"

/-- `json.dumps` on the metric record, laid out in the insertion order of
the dict literal in `Meter.flush`: key, attributes, value, type, tags. -/
def jsonDumps (m : MetricRecord) : String :=
  "\x7b" ++
    jsonString "key" ++ ": " ++ jsonString m.key ++ ", " ++
    jsonString "attributes" ++ ": " ++ jsonOfPairs m.attributes ++ ", " ++
    jsonString "value" ++ ": " ++ jsonNum m.value ++ ", " ++
    jsonString "type" ++ ": " ++ jsonString "metric" ++ ", " ++
    jsonString "tags" ++ ": " ++ jsonOfTags m.tags ++
  "\x7d"

/-- UTF-8 encoding of one character (`str.encode('utf-8')`), as a list of
byte values. -/
def utf8Char (c : Char) : List Nat :=
  let n := c.toNat
  if n < 128 then [n]
  else if n < 2048 then [192 + n / 64, 128 + n % 64]
  else if n < 65536 then [224 + n / 4096, 128 + n / 64 % 64, 128 + n % 64]
  else [240 + n / 262144, 128 + n / 4096 % 64, 128 + n / 64 % 64, 128 + n % 64]

/-- `str.encode('utf-8')`: the byte sequence of a string. -/
def encodeUTF8 (s : String) : List Nat :=
  (s.data.map utf8Char).flatten

/-- One UDP datagram as dispatched by the transport: payload bytes and the
remote address the ephemeral endpoint was bound to. -/
structure Datagram where
  payload : List Nat
  remote : String × Nat
deriving DecidableEq

/-- The metric registry.  `metrics` is the Python dict `_metrics` as an
association list in insertion order (Python dicts preserve insertion order);
`default_key` and `ffwd_address` are set at construction. -/
structure MetricRelay where
  default_key : String
  ffwd_address : String × Nat
  metrics : List (String × Metric)
deriving DecidableEq

/-- Modelled from the spec: `shumway.MetricRelay.__init__` (not under
`src/`) stores the default key, resolves the destination address tuple once,
and starts with an empty metric mapping; the asyncio event loop parameter
does not affect the data model. -/
def MetricRelay.new (default_key ffwd_ip : String) (ffwd_port : Nat) :
    MetricRelay :=
  { default_key := default_key
    ffwd_address := (ffwd_ip, ffwd_port)
    metrics := [] }

/-- Python dict lookup on the association list: first binding of the key. -/
def assocLookup {α : Type} (l : List (String × α)) (k : String) : Option α :=
  match l with
  | [] => none
  | (k', v) :: t => if k' = k then some v else assocLookup t k

/-- Python in-place mutation of the value stored at a present key: the
binding keeps its position, only the stored metric changes. -/
def assocUpdate {α : Type} (l : List (String × α)) (k : String) (v : α) :
    List (String × α) :=
  match l with
  | [] => []
  | (k', v') :: t =>
      if k' = k then (k', v) :: t else (k', v') :: assocUpdate t k v

/-- The keys of the mapping, in insertion order. -/
def assocKeys {α : Type} (l : List (String × α)) : List String :=
  l.map Prod.fst

/-- `MetricRelay._sendto` (src lines 153–157): serialize the record with
`json.dumps`, encode UTF-8, and dispatch one datagram to the configured
FFWD address over a fresh endpoint. -/
def MetricRelay.sendto (r : MetricRelay) (metric : MetricRecord) : Datagram :=
  { payload := encodeUTF8 (jsonDumps metric), remote := r.ffwd_address }

/-- `MetricRelay.flush_single` (src lines 149–151): flush one metric through
`_sendto`; the trace is the single datagram produced. -/
def MetricRelay.flushSingle (r : MetricRelay) (m : Metric) : List Datagram :=
  [MetricRelay.sendto r (Meter.flushRecord m)]

/-- `MetricRelay.flush` (src lines 144–147): flush every stored metric
sequentially, in mapping (= insertion) order; the registry itself is
unchanged and the trace is the concatenation of the individual sends. -/
def MetricRelay.flush (r : MetricRelay) : MetricRelay × List Datagram :=
  (r, (r.metrics.map (fun p => MetricRelay.flushSingle r p.2)).flatten)

/-- `MetricRelay.emit` (src lines 103–114): build a transient `Meter` with
the relay's default key and flush it immediately; the registry mapping is
untouched. -/
def MetricRelay.emit (r : MetricRelay) (metric : String) (value : ℚ)
    (attributes : Option (List (String × JVal))) (tags : Option JTags) :
    MetricRelay × List Datagram :=
  let one_time_metric := Meter.make metric r.default_key value attributes tags
  (r, MetricRelay.flushSingle r one_time_metric)

/-- `MetricRelay.incr` (src lines 116–128): look the name up in `_metrics`;
on `KeyError` create a `Counter` under that very name and store it; then
call `.incr(value)` on the stored object.  Only counters have an `incr`
method (spec: "`incr` — Counter only"), so finding a non-counter under the
key is an `AttributeError`, modelled as `none`. -/
def MetricRelay.incr (r : MetricRelay) (metric : String) (value : ℚ) :
    Option MetricRelay :=
  match assocLookup r.metrics metric with
  | some counter =>
      if counter.kind = .counter then
        some { r with metrics := assocUpdate r.metrics metric (Counter.incr counter value) }
      else none
  | none =>
      let counter := Counter.make metric r.default_key
      some { r with metrics := r.metrics ++ [(metric, Counter.incr counter value)] }

/-- `MetricRelay.incr` called without an explicit amount: the source's
default parameter value is 1. -/
def MetricRelay.incrDefault (r : MetricRelay) (metric : String) :
    Option MetricRelay :=
  MetricRelay.incr r metric 1

/-- A sequence of `incr` calls on the same name, left to right. -/
def MetricRelay.incrSeq (r : MetricRelay) (metric : String) (amounts : List ℚ) :
    Option MetricRelay :=
  amounts.foldlM (fun s a => MetricRelay.incr s metric a) r

/-- `MetricRelay.timer` (src lines 130–142): look up `timer-<name>`; on
`KeyError` create a `Timer` carrying the bare name and store it under the
prefixed key; return the stored object (whatever it is). -/
def MetricRelay.timer (r : MetricRelay) (metric : String) :
    Metric × MetricRelay :=
  match assocLookup r.metrics ("timer-" ++ metric) with
  | some t => (t, r)
  | none =>
      let t := Timer.make metric r.default_key
      (t, { r with metrics := r.metrics ++ [("timer-" ++ metric, t)] })

/-- One byte of Python's `bytes.__repr__`, given the chosen quote byte:
backslash and the quote get escaped, tab/newline/carriage return get their
shorthands, printable ASCII passes through, everything else is `\xhh`. -/
def byteReprChar (quote b : Nat) : String :=
  if b = 92 then "\\\\"
  else if b = quote then "\\" ++ String.mk [Char.ofNat quote]
  else if b = 9 then "\\t"
  else if b = 10 then "\\n"
  else if b = 13 then "\\r"
  else if 32 ≤ b ∧ b ≤ 126 then String.mk [Char.ofNat b]
  else "\\x" ++ String.mk [hexDigit (b / 16), hexDigit (b % 16)]

/-- Python's `bytes.__repr__`, as an f-string `\x7bself.message\x7d` renders the
payload: `b'...'`, switching to double quotes when the bytes contain a
single quote but no double quote. -/
def bytesRepr (bs : List Nat) : String :=
  let quote := if bs.contains 39 ∧ ¬ bs.contains 34 then 34 else 39
  "b" ++ String.mk [Char.ofNat quote] ++
    String.join (bs.map (byteReprChar quote)) ++
  String.mk [Char.ofNat quote]

/-- `FFWDClientProtocol.error_received` (src lines 59–61): the warning text
logged when the transport reports an error — the f-string interpolating the
error and the attempted payload.  The callback returns normally; nothing is
re-raised. -/
def FFWDClientProtocol.errorReceived (message : List Nat) (exc : String) :
    String :=
  "Error when sending metric: " ++ exc ++ "\nMetric value: " ++ bytesRepr message

/-- Modelled from the spec: the outcome the asyncio datagram transport
reports for one send — success, or a transport-level error delivered to the
protocol's `error_received` callback (never raised into the sender). -/
inductive NetOutcome where
  | ok
  | err : String → NetOutcome
deriving DecidableEq

/-- Modelled from the spec: dispatching one datagram under a transport
outcome.  Success transmits the datagram; a transport error transmits
nothing and produces exactly the warning `error_received` logs.  Both paths
return normally — the result type has no exception case, matching the
policy that transport failures are swallowed. -/
def transmit (d : Datagram) (o : NetOutcome) : List Datagram × List String :=
  match o with
  | .ok => ([d], [])
  | .err exc => ([], [FFWDClientProtocol.errorReceived d.payload exc])

/-- `flush_single` through the modelled transport: the datagrams actually
delivered and the warnings logged, under the given network outcome. -/
def MetricRelay.flushSingleNet (r : MetricRelay) (m : Metric)
    (o : NetOutcome) : List Datagram × List String :=
  transmit (MetricRelay.sendto r (Meter.flushRecord m)) o

/-- `emit` through the modelled transport: the relay (unchanged), the
datagrams delivered, and the warnings logged. -/
def MetricRelay.emitNet (r : MetricRelay) (metric : String) (value : ℚ)
    (attributes : Option (List (String × JVal))) (tags : Option JTags)
    (o : NetOutcome) : MetricRelay × (List Datagram × List String) :=
  let one_time_metric := Meter.make metric r.default_key value attributes tags
  (r, transmit (MetricRelay.sendto r (Meter.flushRecord one_time_metric)) o)

/-- `hay` contains `needle` as a contiguous substring. -/
def strContains (hay needle : String) : Prop :=
  ∃ pre post, hay = pre ++ needle ++ post

/-! ## Concrete fixtures used to instantiate hypothesis-bearing theorems -/

/-- A fresh relay with no stored metrics. -/
def freshRelay : MetricRelay := MetricRelay.new "k" "127.0.0.1" 19000

/-- A relay with one stored counter under the key "requests". -/
def exampleRelay : MetricRelay :=
  { default_key := "k"
    ffwd_address := ("127.0.0.1", 19000)
    metrics := [("requests", Counter.make "requests" "k")] }

/-! ## Helper lemmas on the registry mapping -/

theorem assocLookup_append_of_some {α : Type} {l : List (String × α)}
    {k : String} {v : α} (l2 : List (String × α))
    (h : assocLookup l k = some v) : assocLookup (l ++ l2) k = some v := by
  induction l with
  | nil => simp [assocLookup] at h
  | cons p t ih =>
      obtain ⟨k', v'⟩ := p
      rw [List.cons_append]
      by_cases hk : k' = k
      · subst hk
        rw [assocLookup, if_pos rfl] at h
        rw [assocLookup, if_pos rfl]
        exact h
      · rw [assocLookup, if_neg hk] at h
        rw [assocLookup, if_neg hk]
        exact ih h

theorem assocLookup_append_self {α : Type} {l : List (String × α)}
    {k : String} (v : α) (h : assocLookup l k = none) :
    assocLookup (l ++ [(k, v)]) k = some v := by
  induction l with
  | nil => simp [assocLookup]
  | cons p t ih =>
      obtain ⟨k', v'⟩ := p
      rw [List.cons_append]
      by_cases hk : k' = k
      · rw [assocLookup, if_pos hk] at h
        exact absurd h (by simp)
      · rw [assocLookup, if_neg hk] at h
        rw [assocLookup, if_neg hk]
        exact ih h

theorem assocKeys_update {α : Type} (l : List (String × α)) (k : String)
    (v : α) : assocKeys (assocUpdate l k v) = assocKeys l := by
  induction l with
  | nil => rfl
  | cons p t ih =>
      obtain ⟨k', v'⟩ := p
      by_cases hk : k' = k
      · rw [assocUpdate, if_pos hk]
        rfl
      · rw [assocUpdate, if_neg hk]
        rw [assocKeys, List.map_cons, assocKeys, List.map_cons]
        rw [show assocKeys (assocUpdate t k v) = (assocUpdate t k v).map Prod.fst from rfl] at ih
        rw [show assocKeys t = t.map Prod.fst from rfl] at ih
        rw [ih]

theorem assocLookup_update_self {α : Type} {l : List (String × α)}
    {k : String} {w : α} (v : α) (h : assocLookup l k = some w) :
    assocLookup (assocUpdate l k v) k = some v := by
  induction l with
  | nil => simp [assocLookup] at h
  | cons p t ih =>
      obtain ⟨k', v'⟩ := p
      by_cases hk : k' = k
      · rw [assocUpdate, if_pos hk, assocLookup, if_pos hk]
      · rw [assocLookup, if_neg hk] at h
        rw [assocUpdate, if_neg hk, assocLookup, if_neg hk]
        exact ih h

theorem assocLookup_update_ne {α : Type} (l : List (String × α))
    {k k2 : String} (v : α) (h : k2 ≠ k) :
    assocLookup (assocUpdate l k v) k2 = assocLookup l k2 := by
  induction l with
  | nil => rfl
  | cons p t ih =>
      obtain ⟨k', v'⟩ := p
      by_cases hk : k' = k
      · subst hk
        rw [assocUpdate, if_pos rfl, assocLookup,
            if_neg (fun hh => h hh.symm), assocLookup,
            if_neg (fun hh => h hh.symm)]
      · rw [assocUpdate, if_neg hk]
        by_cases hk2 : k' = k2
        · rw [assocLookup, if_pos hk2, assocLookup, if_pos hk2]
        · rw [assocLookup, if_neg hk2, assocLookup, if_neg hk2]
          exact ih

theorem flatten_map_singleton {α β : Type} (g : α → β) (l : List α) :
    (l.map (fun a => [g a])).flatten = l.map g := by
  induction l with
  | nil => rfl
  | cons a t ih => simp [ih]

theorem timer_key_ne (n : String) : "timer-" ++ n ≠ n := by
  intro h
  have h2 := congrArg String.length h
  rw [String.length_append] at h2
  have h6 : ("timer-".length) = 6 := by decide
  omega

/-! ## Claim theorems -/

/-- C1: for every metric variant (Meter, Counter, Timer), `flush` passes the
sink exactly the record `\x7bkey, attributes, value, type: "metric", tags\x7d`
built from the metric's current fields; the transport serializes that record
as JSON encoded to UTF-8 bytes; and the packaged fields do not depend on
which variant is flushed. -/
theorem flush_record_uniform (r : MetricRelay) (m : Metric) :
    MetricRelay.flushSingle r m =
      [{ payload := encodeUTF8 (jsonDumps (Meter.flushRecord m)),
         remote := r.ffwd_address }] ∧
    Meter.flushRecord m =
      { key := m.key, attributes := m.attributes, value := m.value,
        type := "metric", tags := m.tags } ∧
    (∀ k s, Meter.flushRecord { m with kind := k, start := s } =
      Meter.flushRecord m) ∧
    (∀ what key, Meter.flushRecord (Counter.make what key) =
        Meter.flushRecord (Timer.make what key) ∧
      Meter.flushRecord (Counter.make what key) =
        Meter.flushRecord (Meter.make what key 0 none none)) :=
  ⟨rfl, rfl, fun _ _ => rfl, fun _ _ => ⟨rfl, rfl⟩⟩

/-- C5: `flush()` on a registry holding N stored metrics issues exactly N
datagram sends, one per stored metric, in the mapping's (insertion) order —
the trace is the in-order concatenation of each metric's single send. -/
theorem flush_sends_each_metric_in_order (r : MetricRelay) :
    (MetricRelay.flush r).2 =
      r.metrics.map (fun p => MetricRelay.sendto r (Meter.flushRecord p.2)) ∧
    (MetricRelay.flush r).2.length = r.metrics.length := by
  constructor
  · rw [MetricRelay.flush]
    simp only [MetricRelay.flushSingle]
    exact flatten_map_singleton _ _
  · rw [MetricRelay.flush]
    simp only [MetricRelay.flushSingle]
    rw [flatten_map_singleton]
    exact List.length_map _ _

/-- C6: `emit(name, value, attributes, tags)` transmits exactly one datagram
whose record carries the relay's default key, `\x7bwhat: name\x7d` merged with the
caller attributes, the given value and tags — and leaves the stored-metrics
mapping unchanged. -/
theorem emit_one_datagram_registry_unchanged (r : MetricRelay) (n : String)
    (v : ℚ) (la : List (String × JVal)) (tv : JTags) :
    MetricRelay.emit r n v (some la) (some tv) =
      (r, [MetricRelay.sendto r
            { key := r.default_key
              attributes := ("what", JVal.str n) :: la
              value := v
              type := "metric"
              tags := tv }]) ∧
    (MetricRelay.emit r n v (some la) (some tv)).1.metrics = r.metrics ∧
    (MetricRelay.emit r n v (some la) (some tv)).2.length = 1 :=
  ⟨rfl, rfl, rfl⟩

/-- C2: a transport-level error during a send transmits nothing, produces
exactly one warning whose text contains both the error and the attempted
payload, and the operation returns normally — under every network outcome
`emit` hands back the relay instead of raising. -/
theorem transport_error_logged_not_raised (r : MetricRelay) (m : Metric)
    (exc n : String) (v : ℚ) (la : Option (List (String × JVal)))
    (tv : Option JTags) :
    MetricRelay.flushSingleNet r m (NetOutcome.err exc) =
      ([], [FFWDClientProtocol.errorReceived
              (MetricRelay.sendto r (Meter.flushRecord m)).payload exc]) ∧
    strContains
      (FFWDClientProtocol.errorReceived
        (MetricRelay.sendto r (Meter.flushRecord m)).payload exc) exc ∧
    strContains
      (FFWDClientProtocol.errorReceived
        (MetricRelay.sendto r (Meter.flushRecord m)).payload exc)
      (bytesRepr (MetricRelay.sendto r (Meter.flushRecord m)).payload) ∧
    (∀ o, (MetricRelay.emitNet r n v la tv o).1 = r) := by
  refine ⟨rfl,
    ⟨"Error when sending metric: ",
     "\nMetric value: " ++ bytesRepr (MetricRelay.sendto r (Meter.flushRecord m)).payload, ?_⟩,
    ⟨"Error when sending metric: " ++ exc ++ "\nMetric value: ", "", ?_⟩,
    fun o => ?_⟩
  · rw [FFWDClientProtocol.errorReceived, String.append_assoc]
  · rw [FFWDClientProtocol.errorReceived, String.append_empty]
  · cases o <;> rfl

/-- Accumulation of a sequence of `incr` calls over a counter already stored
under `n`: the stored counter keeps its identity fields and gains the sum of
the amounts. -/
theorem incrSeq_on_stored_counter (n : String) (amounts : List ℚ) :
    ∀ (r : MetricRelay) (c : Metric),
      assocLookup r.metrics n = some c → c.kind = .counter →
      ∃ r', MetricRelay.incrSeq r n amounts = some r' ∧
        ∃ c', assocLookup r'.metrics n = some c' ∧
          c'.kind = MetricKind.counter ∧
          c'.value = c.value + amounts.sum ∧
          c'.name = c.name ∧ c'.key = c.key ∧
          c'.attributes = c.attributes ∧ c'.tags = c.tags := by
  induction amounts with
  | nil =>
      intro r c h hk
      exact ⟨r, rfl, c, h, hk, by simp, rfl, rfl, rfl, rfl⟩
  | cons a t ih =>
      intro r c h hk
      have hstep : MetricRelay.incr r n a =
          some { r with metrics := assocUpdate r.metrics n (Counter.incr c a) } := by
        rw [MetricRelay.incr, h]
        simp [hk]
      have hlook : assocLookup (assocUpdate r.metrics n (Counter.incr c a)) n =
          some (Counter.incr c a) := assocLookup_update_self _ h
      obtain ⟨r', h1, c', h2, h3, h4, h5, h6, h7, h8⟩ :=
        ih { r with metrics := assocUpdate r.metrics n (Counter.incr c a) }
          (Counter.incr c a) hlook hk
      refine ⟨r', ?_, c', h2, h3, ?_, h5, h6, h7, h8⟩
      · rw [MetricRelay.incrSeq, List.foldlM_cons, hstep]
        simpa [MetricRelay.incrSeq] using h1
      · rw [h4]
        show (c.value + a) + t.sum = c.value + (a :: t).sum
        rw [List.sum_cons]
        ring

/-- C3: starting from a relay with nothing stored under `n`, the calls
`incr(n, a1), ..., incr(n, aN)` leave a counter under `n` whose value is its
initial value (0) plus the sum of the amounts; the source's default amount
is 1; negative amounts are accepted and decrement. -/
theorem incr_accumulates_sum (r : MetricRelay) (n : String) (a : ℚ)
    (amounts : List ℚ) (h : assocLookup r.metrics n = none) :
    (∃ r', MetricRelay.incrSeq r n (a :: amounts) = some r' ∧
      ∃ c', assocLookup r'.metrics n = some c' ∧
        c'.kind = MetricKind.counter ∧
        c'.value = 0 + (a :: amounts).sum) ∧
    (∀ (r2 : MetricRelay) (m2 : String),
      MetricRelay.incrDefault r2 m2 = MetricRelay.incr r2 m2 1) ∧
    (∀ (c : Metric) (d : ℚ), d < 0 → (Counter.incr c d).value < c.value) := by
  refine ⟨?_, fun _ _ => rfl, fun c d hd => ?_⟩
  · have hstep : MetricRelay.incr r n a = some
        { r with metrics := r.metrics ++
            [(n, Counter.incr (Counter.make n r.default_key) a)] } := by
      rw [MetricRelay.incr, h]
    have hlook : assocLookup
        (r.metrics ++ [(n, Counter.incr (Counter.make n r.default_key) a)]) n =
        some (Counter.incr (Counter.make n r.default_key) a) :=
      assocLookup_append_self _ h
    obtain ⟨r', h1, c', h2, h3, h4, -, -, -, -⟩ :=
      incrSeq_on_stored_counter n amounts
        { r with metrics := r.metrics ++
            [(n, Counter.incr (Counter.make n r.default_key) a)] }
        (Counter.incr (Counter.make n r.default_key) a) hlook rfl
    refine ⟨r', ?_, c', h2, h3, ?_⟩
    · rw [MetricRelay.incrSeq, List.foldlM_cons, hstep]
      simpa [MetricRelay.incrSeq] using h1
    · rw [h4]
      show ((Counter.make n r.default_key).value + a) + amounts.sum =
        0 + (a :: amounts).sum
      rw [List.sum_cons]
      show ((0 : ℚ) + a) + amounts.sum = 0 + (a + amounts.sum)
      ring
  · show c.value + d < c.value
    linarith

/-- C3 witness: three increments 1, -2, 5 on a fresh relay leave a counter
of value 4 under the name. -/
theorem incr_accumulates_sum_witness :
    ∃ r', MetricRelay.incrSeq freshRelay "hits" (1 :: [-2, 5]) = some r' ∧
      ∃ c', assocLookup r'.metrics "hits" = some c' ∧
        c'.kind = MetricKind.counter ∧
        c'.value = 0 + ((1 : ℚ) :: [-2, 5]).sum :=
  (incr_accumulates_sum freshRelay "hits" 1 [-2, 5] (by decide)).1

/-- C4: at most one instance per storage key — a second `timer(n)` call
returns exactly the stored pair; the timer lives under `timer-<n>`; `incr`
on a stored counter rebinds nothing (same position, same identity fields,
only the value changes, keys unchanged); a timer and counter of the same
base name use distinct keys; and existing bindings survive both accessors
untouched. -/
theorem registry_single_instance (r : MetricRelay) (n k2 : String)
    (c m2 : Metric) (v : ℚ)
    (hc : assocLookup r.metrics n = some c) (hk : c.kind = .counter)
    (h2 : assocLookup r.metrics k2 = some m2) :
    MetricRelay.timer (MetricRelay.timer r n).2 n = MetricRelay.timer r n ∧
    assocLookup (MetricRelay.timer r n).2.metrics ("timer-" ++ n) =
      some (MetricRelay.timer r n).1 ∧
    MetricRelay.incr r n v =
      some { r with metrics := assocUpdate r.metrics n (Counter.incr c v) } ∧
    (Counter.incr c v).kind = c.kind ∧
    (Counter.incr c v).name = c.name ∧
    (Counter.incr c v).key = c.key ∧
    (Counter.incr c v).attributes = c.attributes ∧
    (Counter.incr c v).tags = c.tags ∧
    assocKeys (assocUpdate r.metrics n (Counter.incr c v)) =
      assocKeys r.metrics ∧
    ("timer-" ++ n ≠ n) ∧
    assocLookup (MetricRelay.timer r n).2.metrics k2 = some m2 := by
  have hfound : ∀ (s : MetricRelay) (t' : Metric),
      assocLookup s.metrics ("timer-" ++ n) = some t' →
      MetricRelay.timer s n = (t', s) := by
    intro s t' hl
    rw [MetricRelay.timer, hl]
  have htimer : ∀ (s : MetricRelay),
      assocLookup (MetricRelay.timer s n).2.metrics ("timer-" ++ n) =
        some (MetricRelay.timer s n).1 := by
    intro s
    cases hl : assocLookup s.metrics ("timer-" ++ n) with
    | some t => rw [MetricRelay.timer, hl]; exact hl
    | none => rw [MetricRelay.timer, hl]; exact assocLookup_append_self _ hl
  have hidem : MetricRelay.timer (MetricRelay.timer r n).2 n =
      MetricRelay.timer r n :=
    (hfound _ _ (htimer r)).trans Prod.mk.eta
  have hincr : MetricRelay.incr r n v =
      some { r with metrics := assocUpdate r.metrics n (Counter.incr c v) } := by
    rw [MetricRelay.incr, hc]
    simp [hk]
  have hpers : assocLookup (MetricRelay.timer r n).2.metrics k2 = some m2 := by
    cases hl : assocLookup r.metrics ("timer-" ++ n) with
    | some t => rw [MetricRelay.timer, hl]; exact h2
    | none => rw [MetricRelay.timer, hl]; exact assocLookup_append_of_some _ h2
  exact ⟨hidem, htimer r, hincr, rfl, rfl, rfl, rfl, rfl,
    assocKeys_update _ _ _, timer_key_ne n, hpers⟩

/-- C4 witness: the identity and persistence facts instantiated on the
concrete relay holding the "requests" counter. -/
theorem registry_single_instance_witness :
    MetricRelay.timer (MetricRelay.timer exampleRelay "requests").2 "requests" =
      MetricRelay.timer exampleRelay "requests" ∧
    assocLookup (MetricRelay.timer exampleRelay "requests").2.metrics
      "requests" = some (Counter.make "requests" "k") :=
  ⟨(registry_single_instance exampleRelay "requests" "requests"
      (Counter.make "requests" "k") (Counter.make "requests" "k") 2
      (by decide) rfl (by decide)).1,
   (registry_single_instance exampleRelay "requests" "requests"
      (Counter.make "requests" "k") (Counter.make "requests" "k") 2
      (by decide) rfl (by decide)).2.2.2.2.2.2.2.2.2.2⟩

/-- C7: `flush` reads but does not modify — the registry after `flush()` is
the registry before it, `Meter.flush` leaves the metric untouched, and a
stored counter keeps accumulating on top of its pre-flush value rather than
being reset. -/
theorem flush_does_not_modify_metrics (r : MetricRelay) (m : Metric)
    (n : String) (c : Metric) (a : ℚ)
    (h : assocLookup r.metrics n = some c) (hk : c.kind = .counter) :
    (MetricRelay.flush r).1 = r ∧
    Meter.flushState m = (m, Meter.flushRecord m) ∧
    (∃ r', MetricRelay.incr (MetricRelay.flush r).1 n a = some r' ∧
      ∃ c', assocLookup r'.metrics n = some c' ∧
        c'.value = c.value + a ∧
        (Meter.flushRecord c').value = c.value + a) := by
  refine ⟨rfl, rfl, ?_⟩
  have hincr : MetricRelay.incr r n a =
      some { r with metrics := assocUpdate r.metrics n (Counter.incr c a) } := by
    rw [MetricRelay.incr, h]
    simp [hk]
  exact ⟨_, hincr, Counter.incr c a, assocLookup_update_self _ h, rfl, rfl⟩

/-- C7 witness: flushing the example relay changes nothing, and a further
increment lands on top of the stored value. -/
theorem flush_does_not_modify_metrics_witness :
    (MetricRelay.flush exampleRelay).1 = exampleRelay ∧
    Meter.flushState (Counter.make "requests" "k") =
      (Counter.make "requests" "k",
       Meter.flushRecord (Counter.make "requests" "k")) ∧
    (∃ r', MetricRelay.incr (MetricRelay.flush exampleRelay).1 "requests" 3 =
        some r' ∧
      ∃ c', assocLookup r'.metrics "requests" = some c' ∧
        c'.value = (Counter.make "requests" "k").value + 3 ∧
        (Meter.flushRecord c').value = (Counter.make "requests" "k").value + 3) :=
  flush_does_not_modify_metrics exampleRelay (Counter.make "requests" "k")
    "requests" (Counter.make "requests" "k") 3 (by decide) rfl

/-- C8: a scoped Timer use sets `value` (via `update`) to the elapsed time
of that use; the elapsed time is non-negative under a monotone clock; and
the update happens on every exit path — an erroring body produces the same
timer state as a returning one. -/
theorem scoped_timer_updates_on_every_exit (m : Metric) (t0 t1 : ℚ)
    (body : Except String Unit) (h : t0 ≤ t1) :
    ((Timer.scoped m t0 t1 body).1).value = t1 - t0 ∧
    0 ≤ ((Timer.scoped m t0 t1 body).1).value ∧
    (Timer.scoped m t0 t1 body).1 = Meter.update (Timer.enter m t0) (t1 - t0) ∧
    (∀ e, (Timer.scoped m t0 t1 (Except.error e)).1 =
      (Timer.scoped m t0 t1 body).1) := by
  have hval : ((Timer.scoped m t0 t1 body).1).value = t1 - t0 := rfl
  refine ⟨hval, ?_, rfl, fun e => rfl⟩
  rw [hval]
  linarith

/-- C8 witness: a scope entered at time 2 and exited at time 5 around a
raising body leaves value 3. -/
theorem scoped_timer_updates_on_every_exit_witness :
    ((Timer.scoped (Timer.make "t" "k") 2 5 (Except.error "boom")).1).value =
      5 - 2 ∧
    0 ≤ ((Timer.scoped (Timer.make "t" "k") 2 5 (Except.error "boom")).1).value :=
  ⟨(scoped_timer_updates_on_every_exit (Timer.make "t" "k") 2 5
      (Except.error "boom") (by norm_num)).1,
   (scoped_timer_updates_on_every_exit (Timer.make "t" "k") 2 5
      (Except.error "boom") (by norm_num)).2.1⟩

/-- C9: the timer and counter namespaces collide — `incr` under the literal
name `timer-<other>` stores a Counter under the very storage key
`timer(other)` uses, so the subsequent `timer(other)` call hands back that
Counter (and adds nothing new to the mapping). -/
theorem timer_counter_namespace_collision (r : MetricRelay) (other : String)
    (v : ℚ) (h : assocLookup r.metrics ("timer-" ++ other) = none) :
    ∃ r1, MetricRelay.incr r ("timer-" ++ other) v = some r1 ∧
      (MetricRelay.timer r1 other).2 = r1 ∧
      ((MetricRelay.timer r1 other).1).kind = MetricKind.counter ∧
      assocLookup r1.metrics ("timer-" ++ other) =
        some (MetricRelay.timer r1 other).1 := by
  have hstep : MetricRelay.incr r ("timer-" ++ other) v = some
      { r with metrics := r.metrics ++
          [("timer-" ++ other,
            Counter.incr (Counter.make ("timer-" ++ other) r.default_key) v)] } := by
    rw [MetricRelay.incr, h]
  have hlook : assocLookup
      (r.metrics ++
        [("timer-" ++ other,
          Counter.incr (Counter.make ("timer-" ++ other) r.default_key) v)])
      ("timer-" ++ other) =
      some (Counter.incr (Counter.make ("timer-" ++ other) r.default_key) v) :=
    assocLookup_append_self _ h
  refine ⟨_, hstep, ?_, ?_, ?_⟩
  · rw [MetricRelay.timer]
    rw [show assocLookup ({ r with metrics := r.metrics ++
        [("timer-" ++ other,
          Counter.incr (Counter.make ("timer-" ++ other) r.default_key) v)] } :
            MetricRelay).metrics ("timer-" ++ other) =
        some (Counter.incr (Counter.make ("timer-" ++ other) r.default_key) v)
      from hlook]
  · rw [MetricRelay.timer]
    rw [show assocLookup ({ r with metrics := r.metrics ++
        [("timer-" ++ other,
          Counter.incr (Counter.make ("timer-" ++ other) r.default_key) v)] } :
            MetricRelay).metrics ("timer-" ++ other) =
        some (Counter.incr (Counter.make ("timer-" ++ other) r.default_key) v)
      from hlook]
    rfl
  · rw [MetricRelay.timer]
    rw [show assocLookup ({ r with metrics := r.metrics ++
        [("timer-" ++ other,
          Counter.incr (Counter.make ("timer-" ++ other) r.default_key) v)] } :
            MetricRelay).metrics ("timer-" ++ other) =
        some (Counter.incr (Counter.make ("timer-" ++ other) r.default_key) v)
      from hlook]

/-- C9 witness: on a fresh relay, `incr("timer-load", 1)` followed by
`timer("load")` yields a Counter, not a Timer. -/
theorem timer_counter_namespace_collision_witness :
    ∃ r1, MetricRelay.incr freshRelay ("timer-" ++ "load") 1 = some r1 ∧
      (MetricRelay.timer r1 "load").2 = r1 ∧
      ((MetricRelay.timer r1 "load").1).kind = MetricKind.counter ∧
      assocLookup r1.metrics ("timer-" ++ "load") =
        some (MetricRelay.timer r1 "load").1 :=
  timer_counter_namespace_collision freshRelay "load" 1 (by decide)

/-- C10: the Timer stored by `timer(name)` carries the bare name — its
attributes are exactly `\x7bwhat: name\x7d` with no `timer-` prefix — so its
flushed record's attributes equal those of the counter `incr(name)` creates
for the same base name. -/
theorem timer_attributes_use_bare_name (r : MetricRelay) (n : String)
    (h : assocLookup r.metrics ("timer-" ++ n) = none)
    (h2 : assocLookup r.metrics n = none) :
    ((MetricRelay.timer r n).1).name = n ∧
    ((MetricRelay.timer r n).1).attributes = [("what", JVal.str n)] ∧
    ∃ r' c, MetricRelay.incr r n 1 = some r' ∧
      assocLookup r'.metrics n = some c ∧
      (Meter.flushRecord (MetricRelay.timer r n).1).attributes =
        (Meter.flushRecord c).attributes ∧
      (Meter.flushRecord c).attributes = [("what", JVal.str n)] := by
  have htmr : MetricRelay.timer r n =
      (Timer.make n r.default_key,
       { r with metrics := r.metrics ++
          [("timer-" ++ n, Timer.make n r.default_key)] }) := by
    rw [MetricRelay.timer, h]
  have hstep : MetricRelay.incr r n 1 = some
      { r with metrics := r.metrics ++
          [(n, Counter.incr (Counter.make n r.default_key) 1)] } := by
    rw [MetricRelay.incr, h2]
  refine ⟨?_, ?_, _, Counter.incr (Counter.make n r.default_key) 1, hstep,
    assocLookup_append_self _ h2, ?_, ?_⟩
  · rw [htmr]
    rfl
  · rw [htmr]
    rfl
  · rw [htmr]
    rfl
  · rfl

/-- C10 witness: on the fresh relay, the Timer for "load" and the Counter
for "load" expose the same `what` attribute, un-prefixed. -/
theorem timer_attributes_use_bare_name_witness :
    ((MetricRelay.timer freshRelay "load").1).name = "load" ∧
    ((MetricRelay.timer freshRelay "load").1).attributes =
      [("what", JVal.str "load")] :=
  ⟨(timer_attributes_use_bare_name freshRelay "load" (by decide) (by decide)).1,
   (timer_attributes_use_bare_name freshRelay "load" (by decide) (by decide)).2.1⟩

end Aioshumway
